import Mathlib

/-!
Verification of the `dotsync` dotfile-provisioning tool (src/dotsync/src/main.rs).

The Rust program is shallowly embedded as executable Lean definitions:

* the persisted state record (`State`), history entries, and the source-type
  classification (`detect_source_type`) are translated directly;
* the filesystem is modelled as a partial map from path strings to entries
  (regular files with content and mode bits, symlinks with a stored target,
  and zip archives with their entry list);
* fallible operations return `Except String`; environment-dependent failures
  of the zip writer are made explicit through a `BackupEnv` oracle;
* subprocess side effects of the Repository Fetcher (git / curl / unzip) are
  abstracted as a supplied `fetch` function on filesystems;
* timestamps (`chrono::Local::now`) are threaded as an explicit `now` string;
* stdout/stderr reporting in `destroy` is captured as the produced message
  list; directory creation (`create_dir_all`) is modelled as always
  succeeding, since directories play no role in the verified properties.

The lifecycle operations `init`, `setup`, `status`, `destroy` and the
command dispatch of `main` are then translated on top of this model.
-/

namespace Dotsync

/-- Source-type classification result, mirroring `enum SourceType`. -/
inductive SourceType where
  | Zip
  | GitHttps
  | GitSsh
deriving DecidableEq, Repr

/-- Substring test on character lists, embedding `str::contains`. -/
def hasSubList (needle : List Char) : List Char → Bool
  | [] => needle.isEmpty
  | c :: t => needle.isPrefixOf (c :: t) || hasSubList needle t

/-- `hay.contains(needle)` for strings. -/
def strHasSub (hay needle : String) : Bool :=
  hasSubList needle.toList hay.toList

/-- `hay.starts_with(p)` for strings. -/
def strStarts (hay p : String) : Bool :=
  p.toList.isPrefixOf hay.toList

/-- The archive-marker condition of `detect_source_type`. -/
def hasArchiveMarker (url : String) : Bool :=
  strHasSub url "/archive/" || strHasSub url "/zipball/" || strHasSub url "/releases/download/"

/-- The SSH-marker condition of `detect_source_type`. -/
def hasSshMarker (url : String) : Bool :=
  strStarts url "git@" || strStarts url "ssh://"

/-- Embedding of `fn detect_source_type(url: &str) -> SourceType`. -/
def detect_source_type (url : String) : SourceType :=
  if hasArchiveMarker url then SourceType.Zip
  else if hasSshMarker url then SourceType.GitSsh
  else SourceType.GitHttps

/-- Embedding of `fn expand_home(path: &str) -> PathBuf` with the `HOME`
environment variable passed explicitly. -/
def expand_home (home path : String) : String :=
  match path.toList with
  | '~' :: rest => home ++ String.mk rest
  | _ => path

/-- `trim_end_matches('/')`: remove all trailing slashes. -/
def trimEndSlash (s : String) : String :=
  String.mk (List.reverse (List.dropWhile (fun c => c = '/') (List.reverse s.toList)))

/-- `PathBuf::join`: an absolute right operand replaces the base path. -/
def pathJoin (base p : String) : String :=
  if strStarts p "/" then p else base ++ "/" ++ p

/-- A filesystem entry: a regular file (content and mode bits), a symbolic
link (stored link target), or a zip archive (list of name/content entries). -/
inductive Entry where
  | file (content : String) (mode : Nat)
  | symlink (target : String)
  | zipfile (entries : List (String × String))
deriving DecidableEq, Repr

/-- The filesystem: a partial map from path strings to entries. -/
structure FS where
  entries : String → Option Entry

/-- Point update of the filesystem map. -/
def FS.set (fs : FS) (p : String) (e : Option Entry) : FS :=
  ⟨fun q => if q = p then e else fs.entries q⟩

/-- `Path::exists`. -/
def fsExists (fs : FS) (p : String) : Bool :=
  (fs.entries p).isSome

/-- Owner-read permission bit (0o400). -/
def hasOwnerRead (m : Nat) : Bool :=
  (m / 0o400) % 2 == 1

/-- Owner-write permission bit (0o200). -/
def hasOwnerWrite (m : Nat) : Bool :=
  (m / 0o200) % 2 == 1

/-- A mode denies write access to owner, group and other. -/
def deniesWriteToAll (m : Nat) : Bool :=
  m &&& 0o222 == 0

/-- `fs::read`: succeeds on a readable regular file. -/
def fsRead (fs : FS) (p : String) : Except String String :=
  match fs.entries p with
  | some (Entry.file c m) =>
      if hasOwnerRead m then Except.ok c
      else Except.error ("failed to read file " ++ p)
  | some _ => Except.error ("failed to read file " ++ p)
  | none => Except.error ("failed to read file " ++ p)

/-- `fs::remove_file`: fails when nothing exists at the path. -/
def fsRemove (fs : FS) (p : String) : Except String FS :=
  if (fs.entries p).isSome then Except.ok (fs.set p none)
  else Except.error ("failed to remove file " ++ p)

/-- `fs::write`: creating a fresh file uses mode 0o644; overwriting requires
the owner-write bit. -/
def fsWrite (fs : FS) (p content : String) : Except String FS :=
  match fs.entries p with
  | none => Except.ok (fs.set p (some (Entry.file content 0o644)))
  | some (Entry.file _ m) =>
      if hasOwnerWrite m then Except.ok (fs.set p (some (Entry.file content m)))
      else Except.error ("permission denied writing " ++ p)
  | some _ => Except.error ("not a regular file " ++ p)

/-- `fs::set_permissions` on a regular file; archives keep no mode bits. -/
def FS.setPerm (fs : FS) (p : String) (m : Nat) : Except String FS :=
  match fs.entries p with
  | some (Entry.file c _) => Except.ok (fs.set p (some (Entry.file c m)))
  | some (Entry.zipfile _) => Except.ok fs
  | some (Entry.symlink _) => Except.error ("cannot set permissions on " ++ p)
  | none => Except.error ("no such file " ++ p)

/-- `std::os::unix::fs::symlink`: fails if the target path already exists. -/
def fsSymlink (fs : FS) (source target : String) : Except String FS :=
  if (fs.entries target).isSome then
    Except.error ("failed to create symlink " ++ target)
  else Except.ok (fs.set target (some (Entry.symlink source)))

/-- Append one entry to the zip archive at `zp`. -/
def zipAppend (fs : FS) (zp nm content : String) : FS :=
  match fs.entries zp with
  | some (Entry.zipfile es) => fs.set zp (some (Entry.zipfile (es ++ [(nm, content)])))
  | _ => fs

/-- Embedding of `struct History`. -/
structure History where
  created_at : String
  backup : String
  files : List String
deriving DecidableEq, Repr

/-- Embedding of `struct State`; `HashMap<String, Vec<String>>` is modelled
as an association list with unique keys, looked up with `List.lookup`. -/
structure State where
  url : String
  branch : Option String
  path : String
  backup_path : String
  profiles : List (String × List String)
  active_profile : Option String
  history : Option (List History)
  source_type : Option SourceType
deriving DecidableEq, Repr

/-- `State::STATE_FILE_PATH`. -/
def STATE_FILE_PATH : String := "~/.dotsync.state.json"

/-- `State::READONLY_PERMISSIONS`. -/
def READONLY_PERMISSIONS : Nat := 0o444

/-- `State::WRITABLE_PERMISSIONS`. -/
def WRITABLE_PERMISSIONS : Nat := 0o644

/-- The home-expanded location of the state record. -/
def statePath (home : String) : String :=
  expand_home home STATE_FILE_PATH

/-- `State::set_active_profile`. -/
def set_active_profile (s : State) (profile : String) : State :=
  { s with active_profile := some profile }

/-- `State::append_history`: `history.get_or_insert_with(Vec::new).push(h)`. -/
def append_history (s : State) (h : History) : State :=
  { s with history := some (s.history.getD [] ++ [h]) }

/-- Embedding of `State::write_state_file` at the filesystem level, with the
serialized record passed as the string `json`: ensure the parent directory
(modelled as always succeeding), relax permissions when a prior record
exists, overwrite, then restore read-only permissions. -/
def write_state_file (home json : String) (fs : FS) : Except String FS :=
  let path := statePath home
  let relaxed : Except String FS :=
    if (fs.entries path).isSome then FS.setPerm fs path WRITABLE_PERMISSIONS
    else Except.ok fs
  match relaxed with
  | Except.error e => Except.error e
  | Except.ok fs1 =>
      match fsWrite fs1 path json with
      | Except.error e => Except.error e
      | Except.ok fs2 => FS.setPerm fs2 path READONLY_PERMISSIONS

end Dotsync

namespace Dotsync

/-- Profile resolution in `setup`:
`profiles.get(&profile).or_else(|| profiles.get("default"))`. -/
def resolveProfile (ps : List (String × List String)) (profile : String) :
    Option (List String) :=
  (List.lookup profile ps).orElse (fun _ => List.lookup "default" ps)

/-- Failure oracle for the zip writer used by `create_backup`: whether
`ZipWriter::start_file` and `ZipWriter::write_all` succeed for a given entry
name, and whether `ZipWriter::finish` succeeds. -/
structure BackupEnv where
  zipStartOk : String → Bool
  zipWriteOk : String → Bool
  zipFinishOk : Bool

/-- The per-file loop of `create_backup`: each path is used verbatim
(`PathBuf::from(file)`); a missing file is skipped; an existing file is
read, written into the archive at `zp`, and only then removed. -/
def backupLoop (env : BackupEnv) (zp : String) : List String → FS → (Except String Unit) × FS
  | [], fs => (Except.ok (), fs)
  | f :: rest, fs =>
      if fsExists fs f then
        match fsRead fs f with
        | Except.error e => (Except.error e, fs)
        | Except.ok content =>
            if env.zipStartOk f then
              if env.zipWriteOk f then
                match fsRemove (zipAppend fs zp f content) f with
                | Except.error e => (Except.error e, zipAppend fs zp f content)
                | Except.ok fs2 => backupLoop env zp rest fs2
              else (Except.error "failed to write to zip", fs)
            else (Except.error "failed to add file to zip", fs)
      else backupLoop env zp rest fs

/-- Embedding of `fn create_backup`: home-expand the backup directory,
create the timestamped zip archive there, run the per-file loop, and
finalize the archive.  The successful result is the zip path. -/
def create_backup (files : List String) (target_dir home now : String)
    (env : BackupEnv) (fs : FS) : (Except String String) × FS :=
  let backup_path := expand_home home target_dir
  let zip_path := backup_path ++ "/backup_" ++ now ++ ".zip"
  let fs0 := fs.set zip_path (some (Entry.zipfile []))
  match backupLoop env zip_path files fs0 with
  | (Except.error e, fs1) => (Except.error e, fs1)
  | (Except.ok _, fs1) =>
      if env.zipFinishOk then (Except.ok zip_path, fs1)
      else (Except.error "failed to finalize zip", fs1)

/-- The per-file loop of `create_symlinks`: the target is the profile path
verbatim (`PathBuf::from(file)`, no home expansion); the source is
`source_path.join(target)`; parent-directory creation is modelled as always
succeeding. -/
def symlinkLoop (source_path : String) : List String → FS → (Except String Unit) × FS
  | [], fs => (Except.ok (), fs)
  | f :: rest, fs =>
      let source := pathJoin source_path f
      match fsSymlink fs source f with
      | Except.error e => (Except.error e, fs)
      | Except.ok fs1 => symlinkLoop source_path rest fs1

/-- Embedding of `fn create_symlinks`: only `source_dir` is home-expanded
(after trimming trailing slashes); the returned string is the completion
timestamp. -/
def create_symlinks (files : List String) (source_dir home now : String)
    (fs : FS) : (Except String String) × FS :=
  let source_path := expand_home home (trimEndSlash source_dir)
  match symlinkLoop source_path files fs with
  | (Except.error e, fs1) => (Except.error e, fs1)
  | (Except.ok _, fs1) => (Except.ok now, fs1)

/-- The world a lifecycle operation acts on: the `HOME` value, the persisted
state record (absent means uninitialized; serde round-tripping is modelled
as the identity), and the rest of the filesystem. -/
structure World where
  home : String
  stateRec : Option State
  fs : FS

/-- Embedding of `fn setup`: read state, set the active profile to the
requested name, resolve the file list with fallback to `default`, back up,
symlink, append history, persist. -/
def setup (profile now : String) (env : BackupEnv) (w : World) :
    (Except String Unit) × World :=
  match w.stateRec with
  | none => (Except.error "failed to read state", w)
  | some st0 =>
      let st := set_active_profile st0 profile
      match resolveProfile st.profiles profile with
      | none => (Except.error "no default profile found", w)
      | some profile_files =>
          match create_backup profile_files st.backup_path w.home now env w.fs with
          | (Except.error e, fs1) => (Except.error e, { w with fs := fs1 })
          | (Except.ok backup_zip, fs1) =>
              match create_symlinks profile_files st.path w.home now fs1 with
              | (Except.error e, fs2) => (Except.error e, { w with fs := fs2 })
              | (Except.ok created_at, fs2) =>
                  let st2 := append_history st
                    { created_at := created_at, backup := backup_zip,
                      files := profile_files }
                  (Except.ok (), { w with stateRec := some st2, fs := fs2 })

/-- Embedding of `fn status` (the per-file report printing is not part of
the model): reads the state record and mutates nothing. -/
def status (w : World) : (Except String Unit) × World :=
  match w.stateRec with
  | none => (Except.error "failed to read state", w)
  | some _ => (Except.ok (), w)

/-- The per-file removal loop of `fn destroy`: each path is home-expanded
and removed; a failure is reported (second component collects the printed
messages) and does not stop the loop. -/
def removeLoop (home : String) : List String → FS → FS × List String
  | [], fs => (fs, [])
  | f :: rest, fs =>
      match fsRemove fs (expand_home home f) with
      | Except.ok fs1 =>
          let r := removeLoop home rest fs1
          (r.1, ("removed " ++ f) :: r.2)
      | Except.error e =>
          let r := removeLoop home rest fs
          (r.1, ("could not remove symlink for file " ++ f ++ ": " ++ e) :: r.2)

/-- Embedding of `fn destroy`: best-effort removal of the active profile's
files, then unconditional deletion of the state record
(`State::remove_file` succeeds whether or not the record exists). -/
def destroy (w : World) : (Except String Unit) × World :=
  match w.stateRec with
  | none => (Except.error "failed to read state", w)
  | some st =>
      let fs1 :=
        match st.active_profile with
        | some profile =>
            match List.lookup profile st.profiles with
            | some files => (removeLoop w.home files w.fs).1
            | none => w.fs
        | none => w.fs
      (Except.ok (), { w with stateRec := none, fs := fs1 })

/-- Embedding of `fn init`: read and parse the config (collapsed into an
`Except`), classify the URL, run the Fetcher (the git-availability check
guards the VCS strategies), and only on success write the state record with
the detected source type. -/
def init (config_read : Except String State) (git_installed : Bool)
    (fetch : FS → (Except String Unit) × FS) (w : World) :
    (Except String Unit) × World :=
  match config_read with
  | Except.error e => (Except.error e, w)
  | Except.ok config =>
      let source_type := detect_source_type config.url
      let fetched : (Except String Unit) × FS :=
        match source_type with
        | SourceType.Zip => fetch w.fs
        | SourceType.GitHttps =>
            if git_installed then fetch w.fs
            else (Except.error "git is not installed. please install git to proceed.", w.fs)
        | SourceType.GitSsh =>
            if git_installed then fetch w.fs
            else (Except.error "git is not installed. please install git to proceed.", w.fs)
      match fetched with
      | (Except.error e, fs1) => (Except.error e, { w with fs := fs1 })
      | (Except.ok _, fs1) =>
          (Except.ok (),
            { w with fs := fs1,
                     stateRec := some { config with source_type := some source_type } })

/-- Embedding of `enum Commands`. -/
inductive Commands where
  | Init
  | Setup (profile : String) (dry_run : Bool)
  | Status
  | Refresh
  | Backup
  | Destroy
deriving DecidableEq, Repr

/-- The external inputs the dispatcher threads into the operations. -/
structure Deps where
  config_read : Except String State
  git_installed : Bool
  fetch : FS → (Except String Unit) × FS
  now : String
  env : BackupEnv

/-- The process exit code produced by `main` from the command result. -/
def exit_code : Except String Unit → Nat
  | Except.ok _ => 0
  | Except.error _ => 1

/-- Embedding of the command dispatch in `fn main`: `Refresh` and `Backup`
map to `Ok(())` without touching the world. -/
def runMain (d : Deps) (c : Commands) (w : World) : (Except String Unit) × World :=
  match c with
  | Commands.Init => init d.config_read d.git_installed d.fetch w
  | Commands.Setup profile _ => setup profile d.now d.env w
  | Commands.Status => status w
  | Commands.Refresh => (Except.ok (), w)
  | Commands.Backup => (Except.ok (), w)
  | Commands.Destroy => destroy w

end Dotsync

namespace Dotsync

/-- The step of the backup loop fails at `p` for the failure reasons named
by the specification: the file read fails, or the archive write
(`start_file` or `write_all`) fails. -/
def backupStepFails (env : BackupEnv) (fs : FS) (p : String) : Prop :=
  (∃ e, fsRead fs p = Except.error e) ∨ env.zipStartOk p = false ∨ env.zipWriteOk p = false

/-- The empty filesystem. -/
def fs0 : FS := ⟨fun _ => none⟩

/-- A backup environment in which every zip operation succeeds. -/
def env0 : BackupEnv := ⟨fun _ => true, fun _ => true, true⟩

/-- A state record holding only an empty `default` profile. -/
def stDefault : State :=
  { url := "u", branch := none, path := "repo", backup_path := "bak",
    profiles := [("default", [])], active_profile := none, history := none,
    source_type := none }

/-- An initialized world whose record holds only a `default` profile. -/
def wDefault : World := { home := "/h", stateRec := some stDefault, fs := fs0 }

/-- A state record holding only a `work` profile and no `default` one. -/
def stWork : State :=
  { url := "u", branch := none, path := "repo", backup_path := "bak",
    profiles := [("work", ["a.txt"])], active_profile := none, history := none,
    source_type := none }

/-- An initialized world whose record holds no `default` profile. -/
def wWork : World := { home := "/h", stateRec := some stWork, fs := fs0 }

/-- An uninitialized world: no state record. -/
def wEmpty : World := { home := "/h", stateRec := none, fs := fs0 }

/-- The filesystem produced by saving the record `J` over an empty
filesystem. -/
def wsfFS : FS :=
  FS.set (FS.set fs0 (statePath "/h") (some (Entry.file "J" 0o644)))
    (statePath "/h") (some (Entry.file "J" READONLY_PERMISSIONS))

/-- A config whose URL carries an archive marker. -/
def cfgZip : State :=
  { url := "https://example.com/r/archive/main.zip", branch := none,
    path := "repo", backup_path := "bak", profiles := [],
    active_profile := none, history := none, source_type := none }

/-- A Fetcher that always fails without touching the filesystem. -/
def fetchFail : FS → (Except String Unit) × FS :=
  fun fs => (Except.error "curl failed", fs)

/-- A state record whose `default` profile lists `~/.bashrc` and is active. -/
def st10 : State :=
  { url := "u", branch := none, path := "repo", backup_path := "bak",
    profiles := [("default", ["~/.bashrc"])], active_profile := some "default",
    history := none, source_type := none }

/-- A filesystem holding a regular (non-symlink) file at `/h/.bashrc`. -/
def fs10 : FS :=
  ⟨fun q => if q = "/h/.bashrc" then some (Entry.file "x" 0o644) else none⟩

/-- A world in which the active profile lists `~/.bashrc` and a regular file
sits at its home-expanded path. -/
def w10 : World := { home := "/h", stateRec := some st10, fs := fs10 }

/-- A backup environment whose zip writer fails on every `write_all`. -/
def env5 : BackupEnv := ⟨fun _ => true, fun _ => false, true⟩

/-- A filesystem holding one readable regular file `f.txt`. -/
def fs5 : FS :=
  ⟨fun q => if q = "f.txt" then some (Entry.file "data" 0o644) else none⟩

/-- The zip path `create_backup` derives for backup dir `bak` at time `t`. -/
def zp5 : String := "bak/backup_t.zip"

/-- `fs5` with the empty zip archive created at `zp5`. -/
def fsB5 : FS := FS.set fs5 zp5 (some (Entry.zipfile []))

/-- A state record whose `default` profile lists `f.txt`. -/
def st5 : State :=
  { url := "u", branch := none, path := "repo", backup_path := "bak",
    profiles := [("default", ["f.txt"])], active_profile := none,
    history := none, source_type := none }

/-- The world for the backup-failure scenario. -/
def w5 : World := { home := "/h", stateRec := some st5, fs := fs5 }

end Dotsync

namespace Dotsync

theorem FS.set_entries (fs : FS) (p : String) (e : Option Entry) (q : String) :
    (FS.set fs p e).entries q = if q = p then e else fs.entries q := rfl

/-- C3: source-type classification is a deterministic total function into
the three source types; an archive marker forces `Zip` even in the presence
of an SSH marker, a remaining SSH marker forces `GitSsh`, and everything
else is `GitHttps`. -/
theorem detect_source_type_cases (url : String) :
    (hasArchiveMarker url = true → detect_source_type url = SourceType.Zip)
  ∧ (hasArchiveMarker url = false → hasSshMarker url = true →
        detect_source_type url = SourceType.GitSsh)
  ∧ (hasArchiveMarker url = false → hasSshMarker url = false →
        detect_source_type url = SourceType.GitHttps)
  ∧ (detect_source_type url = SourceType.Zip
      ∨ detect_source_type url = SourceType.GitSsh
      ∨ detect_source_type url = SourceType.GitHttps) := by
  refine ⟨?_, ?_, ?_, ?_⟩
  · intro h; simp [detect_source_type, h]
  · intro h1 h2; simp [detect_source_type, h1, h2]
  · intro h1 h2; simp [detect_source_type, h1, h2]
  · by_cases h1 : hasArchiveMarker url
    · exact Or.inl (by simp [detect_source_type, h1])
    · by_cases h2 : hasSshMarker url
      · exact Or.inr (Or.inl (by simp [detect_source_type, h1, h2]))
      · exact Or.inr (Or.inr (by simp [detect_source_type, h1, h2]))

/-- Witness for C3: a URL carrying both an archive marker and an SSH marker
classifies as `Zip`, showing the archive precedence concretely. -/
theorem detect_source_type_cases_witness :
    detect_source_type "git@github.com:u/r/archive/main.zip" = SourceType.Zip
  ∧ hasSshMarker "git@github.com:u/r/archive/main.zip" = true :=
  ⟨(detect_source_type_cases "git@github.com:u/r/archive/main.zip").1 (by decide),
   by decide⟩

/-- C1: `create_symlinks` does not home-expand the target path.  With
`HOME=/home/u`, profile file `~/.bashrc` and source root `~/df`, the
symlink is created at the literal relative path `~/.bashrc` (pointing at
`/home/u/df/~/.bashrc`), while nothing is created at the home-expanded
location `/home/u/.bashrc` that `status` and `destroy` consult. -/
theorem create_symlinks_ignores_home :
    ((create_symlinks ["~/.bashrc"] "~/df" "/home/u" "t" fs0).2.entries "~/.bashrc"
        = some (Entry.symlink "/home/u/df/~/.bashrc"))
  ∧ ((create_symlinks ["~/.bashrc"] "~/df" "/home/u" "t" fs0).2.entries
        (expand_home "/home/u" "~/.bashrc") = none)
  ∧ expand_home "/home/u" "~/.bashrc" = "/home/u/.bashrc"
  ∧ (create_symlinks ["~/.bashrc"] "~/df" "/home/u" "t" fs0).1 = Except.ok "t" := by
  refine ⟨by decide, by decide, by decide, by rfl⟩

/-- C4: when neither the requested profile nor `default` is a key of
`profiles`, `setup` fails with the profile-resolution error and returns the
world unchanged: no backup, no symlink, no state write. -/
theorem setup_unresolved_profile_fails_cleanly (p now : String) (env : BackupEnv)
    (w : World) (st : State) (hst : w.stateRec = some st)
    (hp : List.lookup p st.profiles = none)
    (hd : List.lookup "default" st.profiles = none) :
    (setup p now env w).1 = Except.error "no default profile found"
  ∧ (setup p now env w).2 = w := by
  have e1 : setup p now env w = (Except.error "no default profile found", w) := by
    simp [setup, hst, set_active_profile, resolveProfile, hp, hd, Option.orElse]
  rw [e1]
  exact ⟨rfl, rfl⟩

/-- Witness for C4 in a world whose record holds only a `work` profile. -/
theorem setup_unresolved_profile_witness :
    (setup "p" "t" env0 wWork).1 = Except.error "no default profile found"
  ∧ (setup "p" "t" env0 wWork).2 = wWork :=
  setup_unresolved_profile_fails_cleanly "p" "t" env0 wWork stWork rfl
    (by decide) (by decide)

/-- Amended C2: when the requested profile is not a key of `profiles`,
`setup` returns the same result and produces the same filesystem effects as
`setup "default"`; the persisted record differs only in `active_profile`,
which records the requested name instead of `default`. -/
theorem setup_fallback_agrees_up_to_active_profile (p now : String)
    (env : BackupEnv) (w : World) (st : State) (hst : w.stateRec = some st)
    (hp : List.lookup p st.profiles = none) :
    (setup p now env w).1 = (setup "default" now env w).1
  ∧ (setup p now env w).2.fs = (setup "default" now env w).2.fs
  ∧ (setup p now env w).2.home = (setup "default" now env w).2.home
  ∧ (((setup p now env w).2.stateRec = (setup "default" now env w).2.stateRec
        ∧ (setup p now env w).2.stateRec = w.stateRec)
     ∨ ∃ s, (setup "default" now env w).2.stateRec = some s
          ∧ (setup p now env w).2.stateRec = some { s with active_profile := some p }) := by
  cases hd : List.lookup "default" st.profiles with
  | none =>
      have e1 : setup p now env w = (Except.error "no default profile found", w) := by
        simp [setup, hst, set_active_profile, resolveProfile, hp, hd, Option.orElse]
      have e2 : setup "default" now env w = (Except.error "no default profile found", w) := by
        simp [setup, hst, set_active_profile, resolveProfile, hd, Option.orElse]
      rw [e1, e2]
      exact ⟨rfl, rfl, rfl, Or.inl ⟨rfl, rfl⟩⟩
  | some pf =>
      rcases hcb : create_backup pf st.backup_path w.home now env w.fs with ⟨r1, fs1⟩
      cases r1 with
      | error e =>
          have e1 : setup p now env w = (Except.error e, { w with fs := fs1 }) := by
            simp [setup, hst, set_active_profile, resolveProfile, hp, hd,
              Option.orElse, hcb]
          have e2 : setup "default" now env w = (Except.error e, { w with fs := fs1 }) := by
            simp [setup, hst, set_active_profile, resolveProfile, hd,
              Option.orElse, hcb]
          rw [e1, e2]
          exact ⟨rfl, rfl, rfl, Or.inl ⟨rfl, rfl⟩⟩
      | ok bz =>
          rcases hcs : create_symlinks pf st.path w.home now fs1 with ⟨r2, fs2⟩
          cases r2 with
          | error e =>
              have e1 : setup p now env w = (Except.error e, { w with fs := fs2 }) := by
                simp [setup, hst, set_active_profile, resolveProfile, hp, hd,
                  Option.orElse, hcb, hcs]
              have e2 : setup "default" now env w = (Except.error e, { w with fs := fs2 }) := by
                simp [setup, hst, set_active_profile, resolveProfile, hd,
                  Option.orElse, hcb, hcs]
              rw [e1, e2]
              exact ⟨rfl, rfl, rfl, Or.inl ⟨rfl, rfl⟩⟩
          | ok ca =>
              have e1 : setup p now env w =
                  (Except.ok (),
                    { w with
                      stateRec := some { st with
                        active_profile := some p,
                        history := some (st.history.getD [] ++
                          [{ created_at := ca, backup := bz, files := pf }]) },
                      fs := fs2 }) := by
                simp [setup, hst, set_active_profile, append_history, resolveProfile,
                  hp, hd, Option.orElse, hcb, hcs]
              have e2 : setup "default" now env w =
                  (Except.ok (),
                    { w with
                      stateRec := some { st with
                        active_profile := some "default",
                        history := some (st.history.getD [] ++
                          [{ created_at := ca, backup := bz, files := pf }]) },
                      fs := fs2 }) := by
                simp [setup, hst, set_active_profile, append_history, resolveProfile,
                  hd, Option.orElse, hcb, hcs]
              rw [e1, e2]
              exact ⟨rfl, rfl, rfl, Or.inr ⟨_, rfl, rfl⟩⟩

/-- Witness for the amended C2 at a concrete world with only a `default`
profile. -/
theorem setup_fallback_agrees_witness :
    (setup "missing-profile" "t" env0 wDefault).1 = (setup "default" "t" env0 wDefault).1
  ∧ (setup "missing-profile" "t" env0 wDefault).2.fs
      = (setup "default" "t" env0 wDefault).2.fs
  ∧ (setup "missing-profile" "t" env0 wDefault).2.home
      = (setup "default" "t" env0 wDefault).2.home
  ∧ (((setup "missing-profile" "t" env0 wDefault).2.stateRec
        = (setup "default" "t" env0 wDefault).2.stateRec
      ∧ (setup "missing-profile" "t" env0 wDefault).2.stateRec = wDefault.stateRec)
     ∨ ∃ s, (setup "default" "t" env0 wDefault).2.stateRec = some s
          ∧ (setup "missing-profile" "t" env0 wDefault).2.stateRec
              = some { s with active_profile := some "missing-profile" }) :=
  setup_fallback_agrees_up_to_active_profile "missing-profile" "t" env0 wDefault
    stDefault rfl (by decide)

/-- Counterexample for C2 as stated: with only a `default` profile present,
`setup "missing-profile"` succeeds but persists a record that differs from
the one persisted by `setup "default"` — the `active_profile` fields are
`"missing-profile"` and `"default"` respectively. -/
theorem setup_fallback_state_differs :
    (setup "missing-profile" "t" env0 wDefault).2.stateRec
      ≠ (setup "default" "t" env0 wDefault).2.stateRec
  ∧ (setup "missing-profile" "t" env0 wDefault).2.stateRec.map State.active_profile
      = some (some "missing-profile")
  ∧ (setup "default" "t" env0 wDefault).2.stateRec.map State.active_profile
      = some (some "default")
  ∧ (setup "missing-profile" "t" env0 wDefault).1 = Except.ok () := by
  refine ⟨by decide, by decide, by decide, by rfl⟩

theorem hasOwnerWrite_writable : hasOwnerWrite WRITABLE_PERMISSIONS = true := by decide

theorem write_state_file_fresh (home json : String) (fs : FS)
    (h : fs.entries (statePath home) = none) :
    write_state_file home json fs =
      Except.ok (FS.set (FS.set fs (statePath home) (some (Entry.file json 0o644)))
        (statePath home) (some (Entry.file json READONLY_PERMISSIONS))) := by
  simp [write_state_file, FS.setPerm, fsWrite, FS.set_entries, h]

theorem write_state_file_over_file (home json c : String) (m : Nat) (fs : FS)
    (h : fs.entries (statePath home) = some (Entry.file c m)) :
    write_state_file home json fs =
      Except.ok (FS.set (FS.set (FS.set fs (statePath home)
          (some (Entry.file c WRITABLE_PERMISSIONS))) (statePath home)
          (some (Entry.file json WRITABLE_PERMISSIONS))) (statePath home)
          (some (Entry.file json READONLY_PERMISSIONS))) := by
  simp [write_state_file, FS.setPerm, fsWrite, FS.set_entries, h, hasOwnerWrite_writable]

/-- C6: after a successful save of the state record, the record carries
mode 0o444, which denies write access to owner, group and other; and a
further save over that read-only record still succeeds, because the save
relaxes the permissions before overwriting and restores them afterwards. -/
theorem write_state_file_readonly_at_rest (home json json2 : String) (fs fs' : FS)
    (h : write_state_file home json fs = Except.ok fs') :
    (∃ c, fs'.entries (statePath home) = some (Entry.file c READONLY_PERMISSIONS))
  ∧ deniesWriteToAll READONLY_PERMISSIONS = true
  ∧ ∃ fs2, write_state_file home json2 fs' = Except.ok fs2 := by
  have hro : fs'.entries (statePath home)
      = some (Entry.file json READONLY_PERMISSIONS) := by
    cases he : fs.entries (statePath home) with
    | none =>
        rw [write_state_file_fresh home json fs he] at h
        injection h with h2
        subst h2
        simp [FS.set_entries]
    | some e =>
        cases e with
        | file c m =>
            rw [write_state_file_over_file home json c m fs he] at h
            injection h with h2
            subst h2
            simp [FS.set_entries]
        | symlink t =>
            simp [write_state_file, FS.setPerm, he] at h
        | zipfile es =>
            simp [write_state_file, FS.setPerm, fsWrite, he] at h
  exact ⟨⟨json, hro⟩, by decide,
    ⟨_, write_state_file_over_file home json2 json READONLY_PERMISSIONS fs' hro⟩⟩

/-- Witness for C6: saving over an empty filesystem, then saving again. -/
theorem write_state_file_readonly_witness :
    (∃ c, wsfFS.entries (statePath "/h") = some (Entry.file c READONLY_PERMISSIONS))
  ∧ deniesWriteToAll READONLY_PERMISSIONS = true
  ∧ ∃ fs2, write_state_file "/h" "J2" wsfFS = Except.ok fs2 :=
  write_state_file_readonly_at_rest "/h" "J" "J2" fs0 wsfFS (by rfl)

/-- C7: when the Fetcher fails on the world's filesystem, or a VCS source
is requested with no git client installed, `init` returns an error and the
state record is untouched — an uninitialized system stays uninitialized. -/
theorem init_fetch_failure_no_state (config : State) (git_installed : Bool)
    (fetch : FS → (Except String Unit) × FS) (w : World)
    (h : (∃ e, (fetch w.fs).1 = Except.error e)
       ∨ (git_installed = false ∧ detect_source_type config.url ≠ SourceType.Zip)) :
    (∃ e, (init (Except.ok config) git_installed fetch w).1 = Except.error e)
  ∧ (init (Except.ok config) git_installed fetch w).2.stateRec = w.stateRec := by
  rcases hf : fetch w.fs with ⟨r, fs1⟩
  cases hdet : detect_source_type config.url with
  | Zip =>
      rcases h with ⟨e, he⟩ | ⟨_, hne⟩
      · rw [hf] at he
        simp at he
        subst he
        exact ⟨⟨e, by simp [init, hdet, hf]⟩, by simp [init, hdet, hf]⟩
      · exact absurd hdet hne
  | GitHttps =>
      cases git_installed with
      | false =>
          refine ⟨⟨"git is not installed. please install git to proceed.", ?_⟩, ?_⟩
          · simp [init, hdet]
          · simp [init, hdet]
      | true =>
          rcases h with ⟨e, he⟩ | ⟨hg, _⟩
          · rw [hf] at he
            simp at he
            subst he
            exact ⟨⟨e, by simp [init, hdet, hf]⟩, by simp [init, hdet, hf]⟩
          · cases hg
  | GitSsh =>
      cases git_installed with
      | false =>
          refine ⟨⟨"git is not installed. please install git to proceed.", ?_⟩, ?_⟩
          · simp [init, hdet]
          · simp [init, hdet]
      | true =>
          rcases h with ⟨e, he⟩ | ⟨hg, _⟩
          · rw [hf] at he
            simp at he
            subst he
            exact ⟨⟨e, by simp [init, hdet, hf]⟩, by simp [init, hdet, hf]⟩
          · cases hg

/-- Witness for C7: a failing download of an archive source leaves the
uninitialized world uninitialized. -/
theorem init_fetch_failure_witness :
    (∃ e, (init (Except.ok cfgZip) true fetchFail wEmpty).1 = Except.error e)
  ∧ (init (Except.ok cfgZip) true fetchFail wEmpty).2.stateRec = wEmpty.stateRec :=
  init_fetch_failure_no_state cfgZip true fetchFail wEmpty
    (Or.inl ⟨"curl failed", rfl⟩)

theorem fsRemove_ok (fs : FS) (p : String) (fs1 : FS)
    (h : fsRemove fs p = Except.ok fs1) : fs1 = fs.set p none := by
  unfold fsRemove at h
  split at h
  · injection h with h2
    exact h2.symm
  · simp at h

theorem fsRemove_error (fs : FS) (p e : String)
    (h : fsRemove fs p = Except.error e) : fs.entries p = none := by
  unfold fsRemove at h
  split at h
  · simp at h
  · rename_i hcond
    cases hfs : fs.entries p with
    | none => rfl
    | some v => rw [hfs] at hcond; simp at hcond

theorem removeLoop_length (home : String) (files : List String) :
    ∀ fs : FS, (removeLoop home files fs).2.length = files.length := by
  induction files with
  | nil => intro fs; rfl
  | cons f rest ih =>
      intro fs
      cases hr : fsRemove fs (expand_home home f) with
      | ok fs1 => simp [removeLoop, hr, ih]
      | error e => simp [removeLoop, hr, ih]

theorem removeLoop_preserves_none (home : String) (files : List String) :
    ∀ (fs : FS) (q : String), fs.entries q = none →
      (removeLoop home files fs).1.entries q = none := by
  induction files with
  | nil => intro fs q h; exact h
  | cons f rest ih =>
      intro fs q h
      cases hr : fsRemove fs (expand_home home f) with
      | ok fs1 =>
          have hfs1 : fs1 = fs.set (expand_home home f) none := fsRemove_ok _ _ _ hr
          have h1 : fs1.entries q = none := by
            rw [hfs1, FS.set_entries]
            split
            · rfl
            · exact h
          simp [removeLoop, hr]
          exact ih fs1 q h1
      | error e =>
          simp [removeLoop, hr]
          exact ih fs q h

theorem removeLoop_removes (home : String) (files : List String) :
    ∀ (fs : FS) (f : String), f ∈ files →
      (removeLoop home files fs).1.entries (expand_home home f) = none := by
  induction files with
  | nil => intro fs f h; cases h
  | cons g rest ih =>
      intro fs f hmem
      cases hr : fsRemove fs (expand_home home g) with
      | ok fs1 =>
          have hfs1 : fs1 = fs.set (expand_home home g) none := fsRemove_ok _ _ _ hr
          rcases List.mem_cons.mp hmem with heq | hrest
          · subst heq
            simp [removeLoop, hr]
            apply removeLoop_preserves_none
            rw [hfs1, FS.set_entries]
            simp
          · simp [removeLoop, hr]
            exact ih fs1 f hrest
      | error e =>
          have hnone : fs.entries (expand_home home g) = none := fsRemove_error _ _ _ hr
          rcases List.mem_cons.mp hmem with heq | hrest
          · subst heq
            simp [removeLoop, hr]
            exact removeLoop_preserves_none home rest fs _ hnone
          · simp [removeLoop, hr]
            exact ih fs f hrest

theorem removeLoop_frame (home : String) (files : List String) :
    ∀ (fs : FS) (q : String), (∀ f ∈ files, q ≠ expand_home home f) →
      (removeLoop home files fs).1.entries q = fs.entries q := by
  induction files with
  | nil => intro fs q _; rfl
  | cons g rest ih =>
      intro fs q h
      have hq : q ≠ expand_home home g := h g (List.mem_cons_self g rest)
      have hrest : ∀ f ∈ rest, q ≠ expand_home home f :=
        fun f hf => h f (List.mem_cons_of_mem g hf)
      cases hr : fsRemove fs (expand_home home g) with
      | ok fs1 =>
          have hfs1 : fs1 = fs.set (expand_home home g) none := fsRemove_ok _ _ _ hr
          simp [removeLoop, hr]
          rw [ih fs1 q hrest, hfs1, FS.set_entries]
          simp [hq]
      | error e =>
          simp [removeLoop, hr]
          exact ih fs q hrest

/-- C8: in `destroy`, every file of the active profile gets exactly one
report message (so no per-file failure aborts the loop); a failing removal
at the head of the list is reported and the loop continues on the rest with
the same filesystem; and the state record is deleted afterwards in every
case. -/
theorem destroy_best_effort_then_state_removed (w : World) (st : State)
    (hst : w.stateRec = some st) :
    (destroy w).2.stateRec = none
  ∧ (∀ (home : String) (files : List String) (fs : FS),
        (removeLoop home files fs).2.length = files.length)
  ∧ (∀ (home f : String) (rest : List String) (fs : FS) (e : String),
        fsRemove fs (expand_home home f) = Except.error e →
        (removeLoop home (f :: rest) fs).1 = (removeLoop home rest fs).1
        ∧ (removeLoop home (f :: rest) fs).2
            = ("could not remove symlink for file " ++ f ++ ": " ++ e)
                :: (removeLoop home rest fs).2) := by
  refine ⟨by simp [destroy, hst], fun home files fs => removeLoop_length home files fs, ?_⟩
  intro home f rest fs e hf
  constructor
  · simp [removeLoop, hf]
  · simp [removeLoop, hf]

/-- Witness for C8: one missing file is reported and the state record is
still deleted. -/
theorem destroy_best_effort_witness :
    (destroy wDefault).2.stateRec = none
  ∧ (removeLoop "/h" ["x", "y"] fs0).2.length = 2
  ∧ ((removeLoop "/h" ["x"] fs0).1 = (removeLoop "/h" [] fs0).1
     ∧ (removeLoop "/h" ["x"] fs0).2
         = ("could not remove symlink for file " ++ "x" ++ ": "
              ++ "failed to remove file x") :: (removeLoop "/h" [] fs0).2) :=
  ⟨(destroy_best_effort_then_state_removed wDefault stDefault rfl).1,
   (destroy_best_effort_then_state_removed wDefault stDefault rfl).2.1 "/h" ["x", "y"] fs0,
   (destroy_best_effort_then_state_removed wDefault stDefault rfl).2.2 "/h" "x" [] fs0
     "failed to remove file x" rfl⟩

/-- C9: the `backup` subcommand is a no-op — it returns success, leaves the
world (state record and filesystem alike) untouched, and the process exit
code is 0. -/
theorem backup_command_is_noop (d : Deps) (w : World) :
    runMain d Commands.Backup w = (Except.ok (), w)
  ∧ exit_code (runMain d Commands.Backup w).1 = 0 :=
  ⟨rfl, rfl⟩

/-- C10: `destroy` removes whatever sits at the home-expanded path of each
file of the active profile — in particular a regular (non-symlink) file —
and leaves every path outside that set untouched. -/
theorem destroy_removes_profile_files (w : World) (st : State) (profile : String)
    (files : List String) (hst : w.stateRec = some st)
    (hap : st.active_profile = some profile)
    (hpf : List.lookup profile st.profiles = some files) :
    (∀ f c m, f ∈ files → w.fs.entries (expand_home w.home f) = some (Entry.file c m) →
        (destroy w).2.fs.entries (expand_home w.home f) = none)
  ∧ (∀ f, f ∈ files → (destroy w).2.fs.entries (expand_home w.home f) = none)
  ∧ (∀ q, (∀ f ∈ files, q ≠ expand_home w.home f) →
        (destroy w).2.fs.entries q = w.fs.entries q) := by
  have hd : (destroy w).2.fs = (removeLoop w.home files w.fs).1 := by
    simp [destroy, hst, hap, hpf]
  refine ⟨?_, ?_, ?_⟩
  · intro f c m hf _
    rw [hd]
    exact removeLoop_removes w.home files w.fs f hf
  · intro f hf
    rw [hd]
    exact removeLoop_removes w.home files w.fs f hf
  · intro q hq
    rw [hd]
    exact removeLoop_frame w.home files w.fs q hq

/-- Witness for C10: the regular file at `/h/.bashrc` is deleted while an
unrelated path keeps its entry. -/
theorem destroy_removes_witness :
    (destroy w10).2.fs.entries (expand_home "/h" "~/.bashrc") = none
  ∧ (destroy w10).2.fs.entries "/other" = w10.fs.entries "/other" :=
  ⟨(destroy_removes_profile_files w10 st10 "default" ["~/.bashrc"] rfl rfl rfl).2.1
      "~/.bashrc" (by decide),
   (destroy_removes_profile_files w10 st10 "default" ["~/.bashrc"] rfl rfl rfl).2.2
      "/other" (by decide)⟩

theorem fsRead_congr (fs fs' : FS) (p : String) (h : fs.entries p = fs'.entries p) :
    fsRead fs p = fsRead fs' p := by
  unfold fsRead
  rw [h]

theorem backupLoop_success_step (env : BackupEnv) (zp f : String)
    (rest : List String) (fs : FS) (content : String)
    (es : List (String × String))
    (hz : fs.entries zp = some (Entry.zipfile es))
    (hex : fsExists fs f = true)
    (hr : fsRead fs f = Except.ok content)
    (hs : env.zipStartOk f = true)
    (hw : env.zipWriteOk f = true) :
    backupLoop env zp (f :: rest) fs
      = backupLoop env zp rest
          ((fs.set zp (some (Entry.zipfile (es ++ [(f, content)])))).set f none)
  ∧ f ≠ zp := by
  have hfzp : f ≠ zp := by
    intro hc
    subst hc
    simp [fsRead, hz] at hr
  have hza : zipAppend fs zp f content
      = fs.set zp (some (Entry.zipfile (es ++ [(f, content)]))) := by
    simp [zipAppend, hz]
  have hexf : (((fs.set zp (some (Entry.zipfile (es ++ [(f, content)])))).entries f).isSome)
      = true := by
    rw [FS.set_entries, if_neg hfzp]
    simpa [fsExists] using hex
  refine ⟨?_, hfzp⟩
  simp [backupLoop, hex, hr, hs, hw, hza, fsRemove, hexf]

theorem backupLoop_zip_extends (env : BackupEnv) (zp : String)
    (files : List String) :
    ∀ (fs : FS) (es : List (String × String)),
      fs.entries zp = some (Entry.zipfile es) →
      ∃ tail, (backupLoop env zp files fs).2.entries zp
        = some (Entry.zipfile (es ++ tail)) := by
  induction files with
  | nil =>
      intro fs es h
      exact ⟨[], by simpa [backupLoop] using h⟩
  | cons f rest ih =>
      intro fs es h
      by_cases hex : fsExists fs f = true
      · cases hr : fsRead fs f with
        | error e =>
            exact ⟨[], by simp [backupLoop, hex, hr, h]⟩
        | ok content =>
            by_cases hs : env.zipStartOk f = true
            · by_cases hw : env.zipWriteOk f = true
              · obtain ⟨hstep, hfzp⟩ :=
                  backupLoop_success_step env zp f rest fs content es h hex hr hs hw
                rw [hstep]
                have hz2 : ((fs.set zp (some (Entry.zipfile (es ++ [(f, content)])))).set
                    f none).entries zp = some (Entry.zipfile (es ++ [(f, content)])) := by
                  rw [FS.set_entries, FS.set_entries]
                  simp [Ne.symm hfzp]
                obtain ⟨t2, ht2⟩ := ih _ _ hz2
                exact ⟨(f, content) :: t2, by rw [ht2, List.append_assoc]; rfl⟩
              · exact ⟨[], by simp [backupLoop, hex, hr, hs, hw, h]⟩
            · exact ⟨[], by simp [backupLoop, hex, hr, hs, h]⟩
      · have hstep : backupLoop env zp (f :: rest) fs = backupLoop env zp rest fs := by
          simp [backupLoop, hex]
        rw [hstep]
        exact ih fs es h

theorem backupLoop_delete_only_archived (env : BackupEnv) (zp : String)
    (files : List String) :
    ∀ (fs : FS) (es : List (String × String)) (p : String), p ≠ zp →
      fs.entries zp = some (Entry.zipfile es) →
      (fs.entries p).isSome = true →
      (backupLoop env zp files fs).2.entries p = none →
      env.zipStartOk p = true ∧ env.zipWriteOk p = true ∧
      ∃ es2 c, (backupLoop env zp files fs).2.entries zp = some (Entry.zipfile es2)
        ∧ (p, c) ∈ es2 ∧ fsRead fs p = Except.ok c := by
  induction files with
  | nil =>
      intro fs es p hpzp hz hp hdel
      simp only [backupLoop] at hdel
      rw [hdel] at hp
      simp at hp
  | cons f rest ih =>
      intro fs es p hpzp hz hp hdel
      by_cases hex : fsExists fs f = true
      · cases hr : fsRead fs f with
        | error e =>
            have hstep : backupLoop env zp (f :: rest) fs = (Except.error e, fs) := by
              simp [backupLoop, hex, hr]
            rw [hstep] at hdel
            rw [hdel] at hp
            simp at hp
        | ok content =>
            by_cases hs : env.zipStartOk f = true
            · by_cases hw : env.zipWriteOk f = true
              · obtain ⟨hstep, hfzp⟩ :=
                  backupLoop_success_step env zp f rest fs content es hz hex hr hs hw
                have hz2 : ((fs.set zp (some (Entry.zipfile (es ++ [(f, content)])))).set
                    f none).entries zp = some (Entry.zipfile (es ++ [(f, content)])) := by
                  rw [FS.set_entries, FS.set_entries]
                  simp [Ne.symm hfzp]
                by_cases hfp : f = p
                · subst hfp
                  refine ⟨hs, hw, ?_⟩
                  obtain ⟨t2, ht2⟩ := backupLoop_zip_extends env zp rest _ _ hz2
                  rw [hstep]
                  refine ⟨(es ++ [(f, content)]) ++ t2, content, by rw [ht2], ?_, hr⟩
                  exact List.mem_append_left t2 (List.mem_append_right es (by simp))
                · have hfs2p : ((fs.set zp (some (Entry.zipfile (es ++ [(f, content)])))).set
                      f none).entries p = fs.entries p := by
                    rw [FS.set_entries, FS.set_entries]
                    simp [Ne.symm hfp, hpzp]
                  rw [hstep] at hdel
                  have hp2 : (((fs.set zp (some (Entry.zipfile (es ++ [(f, content)])))).set
                      f none).entries p).isSome = true := by rw [hfs2p]; exact hp
                  obtain ⟨ha, hb, es2, c, hzz, hmem, hread⟩ :=
                    ih _ _ p hpzp hz2 hp2 hdel
                  refine ⟨ha, hb, es2, c, by rw [hstep]; exact hzz, hmem, ?_⟩
                  rw [fsRead_congr fs _ p hfs2p.symm]
                  exact hread
              · have hstep : backupLoop env zp (f :: rest) fs
                    = (Except.error "failed to write to zip", fs) := by
                  simp [backupLoop, hex, hr, hs, hw]
                rw [hstep] at hdel
                rw [hdel] at hp
                simp at hp
            · have hstep : backupLoop env zp (f :: rest) fs
                  = (Except.error "failed to add file to zip", fs) := by
                simp [backupLoop, hex, hr, hs]
              rw [hstep] at hdel
              rw [hdel] at hp
              simp at hp
      · have hstep : backupLoop env zp (f :: rest) fs = backupLoop env zp rest fs := by
          simp [backupLoop, hex]
        rw [hstep] at hdel
        rw [hstep]
        exact ih fs es p hpzp hz hp hdel

theorem backupLoop_fail_preserves (env : BackupEnv) (zp : String)
    (files : List String) :
    ∀ (fs : FS) (es : List (String × String)) (p : String), p ≠ zp →
      fs.entries zp = some (Entry.zipfile es) →
      (fs.entries p).isSome = true →
      backupStepFails env fs p →
      (backupLoop env zp files fs).2.entries p = fs.entries p
      ∧ (p ∈ files → ∃ e, (backupLoop env zp files fs).1 = Except.error e) := by
  induction files with
  | nil =>
      intro fs es p hpzp hz hp hfail
      exact ⟨rfl, fun hmem => absurd hmem (List.not_mem_nil p)⟩
  | cons f rest ih =>
      intro fs es p hpzp hz hp hfail
      by_cases hex : fsExists fs f = true
      · cases hr : fsRead fs f with
        | error e =>
            have hstep : backupLoop env zp (f :: rest) fs = (Except.error e, fs) := by
              simp [backupLoop, hex, hr]
            rw [hstep]
            exact ⟨rfl, fun _ => ⟨e, rfl⟩⟩
        | ok content =>
            by_cases hfp : f = p
            · subst hfp
              rcases hfail with ⟨e, he⟩ | hzs | hzw
              · rw [hr] at he
                simp at he
              · have hstep : backupLoop env zp (f :: rest) fs
                    = (Except.error "failed to add file to zip", fs) := by
                  simp [backupLoop, hex, hr, hzs]
                rw [hstep]
                exact ⟨rfl, fun _ => ⟨_, rfl⟩⟩
              · by_cases hs : env.zipStartOk f = true
                · have hstep : backupLoop env zp (f :: rest) fs
                      = (Except.error "failed to write to zip", fs) := by
                    simp [backupLoop, hex, hr, hs, hzw]
                  rw [hstep]
                  exact ⟨rfl, fun _ => ⟨_, rfl⟩⟩
                · have hstep : backupLoop env zp (f :: rest) fs
                      = (Except.error "failed to add file to zip", fs) := by
                    simp [backupLoop, hex, hr, hs]
                  rw [hstep]
                  exact ⟨rfl, fun _ => ⟨_, rfl⟩⟩
            · by_cases hs : env.zipStartOk f = true
              · by_cases hw : env.zipWriteOk f = true
                · obtain ⟨hstep, hfzp⟩ :=
                    backupLoop_success_step env zp f rest fs content es hz hex hr hs hw
                  have hz2 : ((fs.set zp (some (Entry.zipfile (es ++ [(f, content)])))).set
                      f none).entries zp = some (Entry.zipfile (es ++ [(f, content)])) := by
                    rw [FS.set_entries, FS.set_entries]
                    simp [Ne.symm hfzp]
                  have hfs2p : ((fs.set zp (some (Entry.zipfile (es ++ [(f, content)])))).set
                      f none).entries p = fs.entries p := by
                    rw [FS.set_entries, FS.set_entries]
                    simp [Ne.symm hfp, hpzp]
                  have hp2 : (((fs.set zp (some (Entry.zipfile (es ++ [(f, content)])))).set
                      f none).entries p).isSome = true := by rw [hfs2p]; exact hp
                  have hfail2 : backupStepFails env
                      ((fs.set zp (some (Entry.zipfile (es ++ [(f, content)])))).set f none) p := by
                    rcases hfail with ⟨e, he⟩ | hzs | hzw
                    · exact Or.inl ⟨e, by rw [← fsRead_congr fs _ p hfs2p.symm]; exact he⟩
                    · exact Or.inr (Or.inl hzs)
                    · exact Or.inr (Or.inr hzw)
                  obtain ⟨ha, hb⟩ := ih _ (es ++ [(f, content)]) p hpzp hz2 hp2 hfail2
                  refine ⟨by rw [hstep, ha, hfs2p], fun hmem => ?_⟩
                  rcases List.mem_cons.mp hmem with heq | hm
                  · exact absurd heq.symm hfp
                  · rw [hstep]
                    exact hb hm
                · have hstep : backupLoop env zp (f :: rest) fs
                      = (Except.error "failed to write to zip", fs) := by
                    simp [backupLoop, hex, hr, hs, hw]
                  rw [hstep]
                  exact ⟨rfl, fun _ => ⟨_, rfl⟩⟩
              · have hstep : backupLoop env zp (f :: rest) fs
                    = (Except.error "failed to add file to zip", fs) := by
                  simp [backupLoop, hex, hr, hs]
                rw [hstep]
                exact ⟨rfl, fun _ => ⟨_, rfl⟩⟩
      · have hstep : backupLoop env zp (f :: rest) fs = backupLoop env zp rest fs := by
          simp [backupLoop, hex]
        rw [hstep]
        obtain ⟨ha, hb⟩ := ih fs es p hpzp hz hp hfail
        refine ⟨ha, fun hmem => ?_⟩
        rcases List.mem_cons.mp hmem with heq | hm
        · subst heq
          rw [fsExists] at hex
          exact absurd hp hex
        · exact hb hm

theorem setup_aborts_on_backup_failure (env : BackupEnv) (prof now : String)
    (w : World) (st : State) (pf : List String) (e : String) (fs1 : FS)
    (hst : w.stateRec = some st)
    (hres : resolveProfile st.profiles prof = some pf)
    (hcb : create_backup pf st.backup_path w.home now env w.fs
        = (Except.error e, fs1)) :
    setup prof now env w = (Except.error e, { w with fs := fs1 }) := by
  simp [setup, hst, set_active_profile, hres, hcb]

/-- C5: in the backup engine, an original file is deleted only after its
content has been written into the archive (a file missing from the final
filesystem was read successfully and sits in the final archive, and both
zip operations succeeded for it); when the read or an archive write fails
at a file, that file's entry is untouched and the loop result is an error
as soon as the file is reached; and a failing `create_backup` makes `setup`
return that error with exactly the backup engine's filesystem — the symlink
engine never runs. -/
theorem create_backup_delete_safety (env : BackupEnv) (zp : String)
    (files : List String) (fs : FS) (p : String) (es : List (String × String))
    (hpzp : p ≠ zp)
    (hz : fs.entries zp = some (Entry.zipfile es))
    (hp : (fs.entries p).isSome = true) :
    ((backupLoop env zp files fs).2.entries p = none →
        env.zipStartOk p = true ∧ env.zipWriteOk p = true ∧
        ∃ es2 c, (backupLoop env zp files fs).2.entries zp = some (Entry.zipfile es2)
          ∧ (p, c) ∈ es2 ∧ fsRead fs p = Except.ok c)
  ∧ (backupStepFails env fs p →
        (backupLoop env zp files fs).2.entries p = fs.entries p
      ∧ (p ∈ files → ∃ e, (backupLoop env zp files fs).1 = Except.error e))
  ∧ (∀ (prof now : String) (w : World) (st : State) (pf : List String)
        (e : String) (fs1 : FS),
        w.stateRec = some st →
        resolveProfile st.profiles prof = some pf →
        create_backup pf st.backup_path w.home now env w.fs
          = (Except.error e, fs1) →
        setup prof now env w = (Except.error e, { w with fs := fs1 })) :=
  ⟨fun hdel => backupLoop_delete_only_archived env zp files fs es p hpzp hz hp hdel,
   fun hfail => backupLoop_fail_preserves env zp files fs es p hpzp hz hp hfail,
   fun prof now w st pf e fs1 hst hres hcb =>
     setup_aborts_on_backup_failure env prof now w st pf e fs1 hst hres hcb⟩

/-- Witness for C5: with a zip writer whose `write_all` always fails, the
file `f.txt` keeps its entry, the loop reports the zip error, and `setup`
aborts with that error and the backup engine's filesystem. -/
theorem create_backup_delete_safety_witness :
    ((backupLoop env5 zp5 ["f.txt"] fsB5).2.entries "f.txt" = fsB5.entries "f.txt"
      ∧ ("f.txt" ∈ ["f.txt"] →
          ∃ e, (backupLoop env5 zp5 ["f.txt"] fsB5).1 = Except.error e))
  ∧ setup "default" "t" env5 w5
      = (Except.error "failed to write to zip", { w5 with fs := fsB5 }) :=
  ⟨(create_backup_delete_safety env5 zp5 ["f.txt"] fsB5 "f.txt" []
      (by decide) rfl rfl).2.1 (Or.inr (Or.inr rfl)),
   (create_backup_delete_safety env5 zp5 ["f.txt"] fsB5 "f.txt" []
      (by decide) rfl rfl).2.2 "default" "t" w5 st5 ["f.txt"]
      "failed to write to zip" fsB5 rfl rfl rfl⟩

end Dotsync
